import Mathlib

/-!
Verification of the smenu launch subsystem (src/main.rs) against its
natural-language specification.

The Rust source is shallowly embedded: pure data is translated to Lean
structures; effectful code (`switch_tty`, `run_entry`, `push2dogd`, the
`main` event loop, `mk_sgui_layout`) is translated to pure functions over an
explicit world record (privileges, device-open outcomes, spawn/wait
outcomes, directory contents) that return a result together with a trace of
observable events (console operations, spawn calls, relay starts, log
posts).  Strings model `PathBuf`/`OsString`; `HashSet`/`Vec` are lists.
-/

/-- Log priorities of the libdogd sink (only these four levels exist). -/
inductive LogPriority where
  | Debug
  | Info
  | Error
  | Critical
deriving DecidableEq, Repr

/-- One line posted to the logging sink: `post_log(line, source, priority)`. -/
structure LogMsg where
  line : String
  source : String
  priority : LogPriority
deriving DecidableEq, Repr

/-! ## Character-level splitting (Rust `str::split(c)`) -/

/-- Rust `str::split(sep)` on a character list: always yields at least one
piece; adjacent separators yield empty pieces. -/
def splitOnChar (sep : Char) : List Char → List (List Char)
  | [] => [[]]
  | c :: rest =>
    match splitOnChar sep rest with
    | [] => [[]]
    | p :: ps => if c = sep then [] :: p :: ps else (c :: p) :: ps

theorem splitOnChar_ne_nil (sep : Char) (l : List Char) : splitOnChar sep l ≠ [] := by
  cases l with
  | nil => simp [splitOnChar]
  | cons c rest =>
    simp only [splitOnChar]
    cases h : splitOnChar sep rest with
    | nil => simp
    | cons p ps =>
      by_cases hc : c = sep <;> simp [hc]

/-! ## Config data model (src/main.rs lines 30-74) -/

/-- `enum Category` from src/main.rs. -/
inductive Category where
  | Tools
  | Programs
deriving DecidableEq, Repr

/-- `struct MenuEntry` from src/main.rs.  `PathBuf` is modelled as `String`. -/
structure MenuEntry where
  name : String
  category : Category
  uses_wayland : Bool
  executable : String
  args : List String
  env : List (String × String)
deriving DecidableEq, Repr

/-- `struct Emulator` from src/main.rs. -/
structure Emulator where
  executable : String
  args : List String
  env : List (String × String)
  systems : List String
deriving DecidableEq, Repr

/-- `struct System` from src/main.rs (`HashSet<String>` as a list with
membership semantics). -/
structure System where
  name : String
  rom_directory : String
  file_extensions : List String
deriving DecidableEq, Repr

/-- `struct MenuLayout` from src/main.rs. -/
structure MenuLayout where
  items : List MenuEntry
  emulators : List Emulator
  systems : List System
deriving DecidableEq, Repr

/-! ## Filesystem model for ROM discovery -/

/-- One iterator item of `fs::read_dir`: `okEntry = false` models an `Err`
entry; `fileName = none` models a non-UTF-8 name (`into_string()` failing);
`pathStr = none` models `path().into_os_string().into_string()` failing. -/
structure DirFile where
  okEntry : Bool
  fileName : Option String
  pathStr : Option String
deriving DecidableEq, Repr

/-- The directory oracle: whether a rom directory exists and what its
enumeration yields (`Except.error` models `fs::read_dir` itself failing). -/
structure FS where
  dirExists : String → Bool
  readDir : String → Except Unit (List DirFile)

/-- `filename.split('.').last().unwrap_or("<invalid>")` from line 110. -/
def extOf (s : String) : String :=
  String.mk ((splitOnChar '.' s.data).getLastD "<invalid>".data)

/-- `filename.split('.').next().unwrap()` from line 115 (split never yields
zero pieces, so the unwrap cannot fire; the default is dead). -/
def fancyNameOf (s : String) : String :=
  String.mk ((splitOnChar '.' s.data).headD [])

/-- Debug rendering of the expected-extension set used in the
wrong-extension log line (`{:?}` on the `HashSet`). -/
def extSetDebug (exts : List String) : String :=
  "\x7b" ++ String.intercalate ", " (exts.map (fun e => "\"" ++ e ++ "\"")) ++ "\x7d"

/-- The log line of src/main.rs line 112. -/
def wrongExtMsg (filename : String) (exts : List String) (ext : String) : String :=
  "Wrong file extension for file " ++ filename ++ ". Expected one of: " ++
    extSetDebug exts ++ ", Got: " ++ ext

/-- The ROM entry synthesized at src/main.rs lines 115-126. -/
def mkRomEntry (em : Emulator) (filename : String) (f : DirFile) : MenuEntry :=
  { name := fancyNameOf filename
    category := Category.Tools
    uses_wayland := true
    executable := em.executable
    args := em.args ++ [f.pathStr.getD ""]
    env := em.env }

/-- The per-file loop of src/main.rs lines 107-129: skips `Err` entries and
non-UTF-8 names, skips (with an error log) files whose extension is not
allowed, and otherwise assigns the next sequential id. -/
def processFiles (sys : System) (em : Emulator) :
    List DirFile → Nat → List (MenuEntry × Nat) × Nat × List LogMsg
  | [], id => ([], id, [])
  | f :: rest, id =>
    if f.okEntry = false then processFiles sys em rest id
    else
      match f.fileName with
      | none => processFiles sys em rest id
      | some filename =>
        let ext := extOf filename
        if ext ∈ sys.file_extensions then
          let r := processFiles sys em rest (id + 1)
          ((mkRomEntry em filename f, id) :: r.1, r.2.1, r.2.2)
        else
          let r := processFiles sys em rest id
          (r.1, r.2.1, ⟨wrongExtMsg filename sys.file_extensions ext, "smenu", LogPriority.Error⟩ :: r.2.2)

/-- The per-system ROM phase of src/main.rs lines 92-134: a missing
directory or a failing `read_dir` or a missing emulator skips the whole
system with an error log; otherwise the first matching emulator
(declaration order, `find`) processes every file. -/
def romPhase (fs : FS) (emulators : List Emulator) :
    List System → Nat → List (String × List (MenuEntry × Nat)) × Nat × List LogMsg
  | [], id => ([], id, [])
  | sys :: rest, id =>
    if fs.dirExists sys.rom_directory then
      match fs.readDir sys.rom_directory with
      | Except.error _ =>
        let r := romPhase fs emulators rest id
        (r.1, r.2.1, ⟨"Failed to open rom directory for " ++ sys.name, "smenu", LogPriority.Error⟩ :: r.2.2)
      | Except.ok files =>
        match emulators.find? (fun e => e.systems.contains sys.name) with
        | none =>
          let r := romPhase fs emulators rest id
          (r.1, r.2.1, ⟨"Failed to find suitable emulator for system " ++ sys.name, "smenu", LogPriority.Error⟩ :: r.2.2)
        | some em =>
          let tab := processFiles sys em files id
          let r := romPhase fs emulators rest tab.2.1
          ((sys.name, tab.1) :: r.1, r.2.1, tab.2.2 ++ r.2.2)
    else
      let r := romPhase fs emulators rest id
      (r.1, r.2.1, ⟨sys.name ++ "'s rom directory, " ++ sys.rom_directory ++ ", does not exist, skipping ", "smenu", LogPriority.Error⟩ :: r.2.2)

/-- The static-item pass of src/main.rs lines 84-90: each declared item is
pushed (with the current id) to the tools or programs list according to its
category, and the id counter is incremented per item. -/
def splitItems : List MenuEntry → Nat → List (MenuEntry × Nat) × List (MenuEntry × Nat) × Nat
  | [], id => ([], [], id)
  | item :: rest, id =>
    let r := splitItems rest (id + 1)
    match item.category with
    | Category.Tools => ((item, id) :: r.1, r.2.1, r.2.2)
    | Category.Programs => (r.1, (item, id) :: r.2.1, r.2.2)

/-- `MenuLayout::mk_sgui_layout` (src/main.rs lines 77-161) restricted to
its observable registry content: the id→entry pairs inserted into
`entry_map` (tools, then programs, then per-system ROM tabs) and the log
lines emitted during discovery.  The sgui `Layout` value itself is an
external toolkit artifact carrying the same ids. -/
def mk_sgui_layout (fs : FS) (ml : MenuLayout) : List (Nat × MenuEntry) × List LogMsg :=
  let s := splitItems ml.items 0
  let r := romPhase fs ml.emulators ml.systems s.2.2
  (s.1.map (fun p => (p.2, p.1)) ++ s.2.1.map (fun p => (p.2, p.1)) ++
     (r.1.flatMap (fun tab => tab.2.map (fun p => (p.2, p.1)))),
   r.2.2)

/-! ## Console arbitration (src/main.rs lines 164-181) -/

/-- Observable console operations issued by `switch_tty` when privileged:
opening the control device, the two ioctls, and the optional clear. -/
inductive ConsoleOp where
  | openCtl
  | activate (num : Int)
  | waitActive (num : Int)
  | openTty (num : Int)
  | clearWrite (num : Int)
deriving DecidableEq, Repr

/-- How one child stdio stream is wired (`Stdio::null`, `Stdio::piped`, or a
`File` bound to a device node). -/
inductive StdioSpec where
  | nullDev
  | piped
  | fromFile (path : String)
deriving DecidableEq, Repr

/-- The stdin/stdout/stderr wiring handed to `Command`. -/
structure Wiring where
  stdin : StdioSpec
  stdout : StdioSpec
  stderr : StdioSpec
deriving DecidableEq, Repr

/-- Unix exit status: a normal exit with a code, or termination by a
signal (`code()` and `signal()` are `Some` in exactly one of the cases). -/
inductive ExitStatusRaw where
  | exited (code : Int)
  | signaled (sig : Int)
deriving DecidableEq, Repr

deriving instance DecidableEq for Except

/-- Child-process handle: whether the stdout/stderr pipe handles were
obtained, and the outcome of `wait()`. -/
structure Child where
  hasStdout : Bool
  hasStderr : Bool
  wait : Except String ExitStatusRaw
deriving DecidableEq, Repr

/-- `ExitStatus::code()`. -/
def ExitStatusRaw.code : ExitStatusRaw → Option Int
  | exited c => some c
  | signaled _ => none

/-- `ExitStatus::signal()` (`ExitStatusExt`). -/
def ExitStatusRaw.signal : ExitStatusRaw → Option Int
  | exited _ => none
  | signaled s => some s

/-- The world a single `run_entry` invocation runs in: effective uid,
outcomes of the device opens and ioctls, presence of `XDG_RUNTIME_DIR` in
the supervisor process's own environment (`env::var` at line 207 consults
the process environment), and the spawn outcome. -/
structure RunWorld where
  euid : Nat
  openDevTty : Bool
  openDevTty0 : Bool
  vtActivate : Int → Bool
  vtWaitActive : Int → Bool
  openTtyNum : Int → Bool
  writeClear : Int → Bool
  openTty3Read : Bool
  openTty3WriteOut : Bool
  openTty3WriteErr : Bool
  procHasXdg : Bool
  spawn : String → List String → List (String × String) → Wiring → Except String Child

/-- The trace events `run_entry`/`switch_tty` produce: log posts, console
operations, arbitration calls, the spawn call (with the exact argument and
environment lists handed to `Command`), relay-thread starts, and the wait. -/
inductive Event where
  | log (m : LogMsg)
  | consoleOp (op : ConsoleOp)
  | arbitrate (num : Int) (clear : Bool)
  | spawnCalled (exe : String) (args : List String) (envs : List (String × String)) (wiring : Wiring)
  | relay (source : String) (priority : LogPriority)
  | waited
deriving DecidableEq, Repr

/-- The info line of src/main.rs line 168. -/
def nonRootMsg : LogMsg :=
  ⟨"Running as a non-root user, ignoring TTY changes", "smenu", LogPriority.Info⟩

/-- `switch_tty` (src/main.rs lines 166-181): a no-op success for non-root;
otherwise open `/dev/tty` (falling back to `/dev/tty0`), `VT_ACTIVATE`,
`VT_WAITACTIVE`, and, when `clear`, write the clear sequence to
`/dev/ttyN`.  The second component is the trace of operations attempted. -/
def switch_tty (w : RunWorld) (num : Int) (clear : Bool) : Except String Unit × List Event :=
  if w.euid ≠ 0 then
    (Except.ok (), [Event.log nonRootMsg])
  else if w.openDevTty || w.openDevTty0 then
    if w.vtActivate num then
      if w.vtWaitActive num then
        if clear then
          if w.openTtyNum num then
            if w.writeClear num then
              (Except.ok (),
               [Event.consoleOp ConsoleOp.openCtl, Event.consoleOp (ConsoleOp.activate num),
                Event.consoleOp (ConsoleOp.waitActive num), Event.consoleOp (ConsoleOp.openTty num),
                Event.consoleOp (ConsoleOp.clearWrite num)])
            else
              (Except.error "failed to write clear sequence",
               [Event.consoleOp ConsoleOp.openCtl, Event.consoleOp (ConsoleOp.activate num),
                Event.consoleOp (ConsoleOp.waitActive num), Event.consoleOp (ConsoleOp.openTty num),
                Event.consoleOp (ConsoleOp.clearWrite num)])
          else
            (Except.error "failed to open target tty",
             [Event.consoleOp ConsoleOp.openCtl, Event.consoleOp (ConsoleOp.activate num),
              Event.consoleOp (ConsoleOp.waitActive num), Event.consoleOp (ConsoleOp.openTty num)])
        else
          (Except.ok (),
           [Event.consoleOp ConsoleOp.openCtl, Event.consoleOp (ConsoleOp.activate num),
            Event.consoleOp (ConsoleOp.waitActive num)])
      else
        (Except.error "VT_WAITACTIVE failed",
         [Event.consoleOp ConsoleOp.openCtl, Event.consoleOp (ConsoleOp.activate num),
          Event.consoleOp (ConsoleOp.waitActive num)])
    else
      (Except.error "VT_ACTIVATE failed",
       [Event.consoleOp ConsoleOp.openCtl, Event.consoleOp (ConsoleOp.activate num)])
  else
    (Except.error "failed to open /dev/tty and /dev/tty0", [Event.consoleOp ConsoleOp.openCtl])

/-- The Graphical stdio wiring (lines 204-206). -/
def gWiring : Wiring := ⟨StdioSpec.nullDev, StdioSpec.piped, StdioSpec.piped⟩

/-- The Console stdio wiring (lines 214-216). -/
def cWiring : Wiring :=
  ⟨StdioSpec.fromFile "/dev/tty3", StdioSpec.fromFile "/dev/tty3", StdioSpec.fromFile "/dev/tty3"⟩

/-- The wiring the entry's mode selects. -/
def wiringOf (e : MenuEntry) : Wiring := if e.uses_wayland then gWiring else cWiring

/-- The info line of src/main.rs line 210. -/
def xdgPresentMsg : LogMsg :=
  ⟨"Detected XDG_RUNTIME_DIR env var present, /not/ setting it", "smenu", LogPriority.Info⟩

/-- Lines 199-218 of src/main.rs: arbitrate in, choose the stdio wiring and
build the local `envs` vector (entry env plus the conditional
`XDG_RUNTIME_DIR` push for Graphical, the `TERM` push for Console).  The
`envs` vector is returned as the second component; note that the source
never passes it to the spawned `Command` (it passes `e.env.clone()`). -/
def wireStdio (w : RunWorld) (e : MenuEntry) :
    Except String (Wiring × List (String × String)) × List Event :=
  if e.uses_wayland then
    match switch_tty w 2 false with
    | (Except.error _, ev) => (Except.error "Failed switch to tty2", Event.arbitrate 2 false :: ev)
    | (Except.ok _, ev) =>
      if w.procHasXdg then
        (Except.ok (gWiring, e.env), (Event.arbitrate 2 false :: ev) ++ [Event.log xdgPresentMsg])
      else
        (Except.ok (gWiring, e.env ++ [("XDG_RUNTIME_DIR", "/xdg")]), Event.arbitrate 2 false :: ev)
  else
    match switch_tty w 3 true with
    | (Except.error _, ev) => (Except.error "Failed to switch to tty3", Event.arbitrate 3 true :: ev)
    | (Except.ok _, ev) =>
      if w.openTty3Read then
        if w.openTty3WriteOut then
          if w.openTty3WriteErr then
            (Except.ok (cWiring, e.env ++ [("TERM", "linux")]), Event.arbitrate 3 true :: ev)
          else (Except.error "Failed to open tty3 for writing", Event.arbitrate 3 true :: ev)
        else (Except.error "Failed to open tty3 for writing", Event.arbitrate 3 true :: ev)
      else (Except.error "Failed to open tty3 for reading", Event.arbitrate 3 true :: ev)

/-! ## Path components (for the program-name extraction at line 229) -/

/-- One `std::path::Component`. -/
inductive PathComp where
  | rootDir
  | curDir
  | parentDir
  | normal (s : String)
deriving DecidableEq, Repr

/-- `to_string_lossy()` of a component (all modelled paths are UTF-8). -/
def PathComp.lossy : PathComp → String
  | rootDir => "/"
  | curDir => "."
  | parentDir => ".."
  | normal s => s

/-- A non-first path piece: `..` is `ParentDir`, anything else `Normal`. -/
def mapComp (p : List Char) : PathComp :=
  if p = ['.', '.'] then PathComp.parentDir else PathComp.normal (String.mk p)

/-- `Path::components()` on a UTF-8 path: empty pieces are dropped, a
leading `/` is `RootDir`, a leading `.` (with no root) is `CurDir`, and
non-leading `.` pieces are dropped.  The empty path has no components; the
`parts = []` fallback arm is unreachable for a non-empty path that does not
start with `/`. -/
def pathComponents (s : String) : List PathComp :=
  if s.data = [] then []
  else if s.data.head? = some '/' then
    PathComp.rootDir ::
      (((splitOnChar '/' s.data).filter (fun p => p ≠ [])).filter (fun p => p ≠ ['.'])).map mapComp
  else
    match (splitOnChar '/' s.data).filter (fun p => p ≠ []) with
    | [] => [PathComp.rootDir]
    | p :: rest =>
      (if p = ['.'] then PathComp.curDir else mapComp p) ::
        (rest.filter (fun q => q ≠ ['.'])).map mapComp

/-! ## Exit classification (src/main.rs lines 246-254) -/

/-- `nix::sys::signal::Signal` numbers on Linux, as `Signal::try_from`
accepts them. -/
def signalTable : List (Int × String) :=
  [(1, "SIGHUP"), (2, "SIGINT"), (3, "SIGQUIT"), (4, "SIGILL"), (5, "SIGTRAP"),
   (6, "SIGABRT"), (7, "SIGBUS"), (8, "SIGFPE"), (9, "SIGKILL"), (10, "SIGUSR1"),
   (11, "SIGSEGV"), (12, "SIGUSR2"), (13, "SIGPIPE"), (14, "SIGALRM"), (15, "SIGTERM"),
   (16, "SIGSTKFLT"), (17, "SIGCHLD"), (18, "SIGCONT"), (19, "SIGSTOP"), (20, "SIGTSTP"),
   (21, "SIGTTIN"), (22, "SIGTTOU"), (23, "SIGURG"), (24, "SIGXCPU"), (25, "SIGXFSZ"),
   (26, "SIGVTALRM"), (27, "SIGPROF"), (28, "SIGWINCH"), (29, "SIGIO"), (30, "SIGPWR"),
   (31, "SIGSYS")]

/-- `format!("{:?}", Signal::try_from(sig))`: `Ok(SIG…)` for a known
signal number, `Err(EINVAL)` otherwise. -/
def signalDebugStr (sig : Int) : String :=
  match signalTable.find? (fun p => p.1 == sig) with
  | some p => "Ok(" ++ p.2 ++ ")"
  | none => "Err(EINVAL)"

/-- The critical line of src/main.rs line 248 (nonzero exit code). -/
def appCodeMsg (name : String) (code : Int) : String :=
  "Application " ++ name ++ " returned with erroneous code " ++ toString code ++
    "!\nCheck logs on data partition"

/-- The critical line of src/main.rs line 253 (terminated by signal). -/
def appSigMsg (name : String) (sig : Int) : String :=
  "Application " ++ name ++ " returned due to " ++ signalDebugStr sig ++
    "!\nCheck logs on data partition"

/-- Lines 246-254: the log events the two classification `if`s produce
(`code()` and `signal()` are checked independently). -/
def classifyLogs (name : String) (st : ExitStatusRaw) : List Event :=
  (match st.code with
   | some code =>
     if code ≠ 0 then [Event.log ⟨appCodeMsg name code, "smenu", LogPriority.Critical⟩] else []
   | none => []) ++
  (match st.signal with
   | some sig => [Event.log ⟨appSigMsg name sig, "smenu", LogPriority.Critical⟩]
   | none => [])

/-- The run outcome: `Ok(())`, a propagated `anyhow` error (identified by
its `context` message), or a panic of the `unwrap` at line 229. -/
inductive RunResult where
  | ok
  | error (msg : String)
  | panicked
deriving DecidableEq, Repr

/-- Lines 231-243: one relay-thread start per successfully obtained pipe
handle (stdout→info, stderr→error), an error log for a missing handle. -/
def relayEvents (child : Child) (name : String) : List Event :=
  (if child.hasStdout then [Event.relay name LogPriority.Info]
   else [Event.log ⟨"Failed to get stdout handle, logs are incomplete", "smenu", LogPriority.Error⟩]) ++
  (if child.hasStderr then [Event.relay name LogPriority.Error]
   else [Event.log ⟨"Failed to get stderr handle, logs are incomplete", "smenu", LogPriority.Error⟩])

/-- `run_entry` (src/main.rs lines 196-258): debug log; arbitrate in and
wire stdio (`wireStdio`); spawn — the source hands `Command` the arguments
`e.args` and the environment `e.env.clone()`, not the locally built `envs`;
program-name extraction (`components().last().unwrap()`); relay-thread
starts for the obtained pipe handles; wait (`?` propagates a wait error
immediately); exit classification; arbitrate out to console 1. -/
def run_entry (w : RunWorld) (e : MenuEntry) : RunResult × List Event :=
  let ev0 : List Event := [Event.log ⟨"Running " ++ e.name, "smenu", LogPriority.Debug⟩]
  match wireStdio w e with
  | (Except.error msg, ev1) => (RunResult.error msg, ev0 ++ ev1)
  | (Except.ok wenvs, ev1) =>
    let ev2 := ev0 ++ ev1 ++ [Event.spawnCalled e.executable e.args e.env wenvs.1]
    match w.spawn e.executable e.args e.env wenvs.1 with
    | Except.error _ => (RunResult.error "Failed to spawn the program", ev2)
    | Except.ok child =>
      match (pathComponents e.executable).getLast? with
      | none => (RunResult.panicked, ev2)
      | some comp =>
        let name := comp.lossy
        let ev5 := ev2 ++ relayEvents child name ++ [Event.waited]
        match child.wait with
        | Except.error _ => (RunResult.error "Failed to wait for program to exit", ev5)
        | Except.ok st =>
          let ev6 := ev5 ++ classifyLogs name st ++ [Event.arbitrate 1 false]
          match switch_tty w 1 false with
          | (Except.error _, ev7) => (RunResult.error "Failed to switch back to tty1", ev6 ++ ev7)
          | (Except.ok _, ev7) => (RunResult.ok, ev6 ++ ev7)

/-- The log posts of a trace. -/
def logsOf (evs : List Event) : List LogMsg :=
  evs.filterMap (fun ev => match ev with | Event.log m => some m | _ => none)

/-- The critical-priority log posts of a trace. -/
def criticalLogs (evs : List Event) : List LogMsg :=
  (logsOf evs).filter (fun m => m.priority == LogPriority.Critical)

/-! ## Output relay (`push2dogd`, src/main.rs lines 183-194) -/

/-- One `read_line` outcome of the modelled stream: an `Err`, or an `Ok`
read appending `s` to the buffer (`s = ""` is an `Ok(0)` read). -/
inductive ReadEv where
  | err
  | chunk (s : String)
deriving DecidableEq, Repr

/-- `push2dogd` with explicit fuel.  `evs` is the finite prefix of read
outcomes the stream yields; once it is exhausted the stream is at true
end-of-stream and every further `read_line` returns `Ok(0)`, appending
nothing.  The loop posts a non-empty buffer (tagged `name`/`prio`) and
clears it, `continue`s on an empty buffer, and exits on `Err`.  `none`
means the fuel ran out before the loop exited. -/
def push2dogdLoop : Nat → List ReadEv → String → LogPriority → String → Option (List LogMsg)
  | 0, _, _, _, _ => none
  | fuel + 1, evs, name, prio, buf =>
    match evs with
    | ReadEv.err :: _ => some []
    | ReadEv.chunk s :: rest =>
      let buf2 := buf ++ s
      if buf2 = "" then push2dogdLoop fuel rest name prio buf2
      else (push2dogdLoop fuel rest name prio "").map (fun l => ⟨buf2, name, prio⟩ :: l)
    | [] =>
      if buf = "" then push2dogdLoop fuel [] name prio buf
      else (push2dogdLoop fuel [] name prio "").map (fun l => ⟨buf, name, prio⟩ :: l)

/-- The relay loop terminates on a stream: some fuel suffices for the loop
to exit (by `Err` — or, per the claim, at end-of-stream). -/
def push2dogdTerminates (evs : List ReadEv) (name : String) (prio : LogPriority) : Prop :=
  ∃ fuel out, push2dogdLoop fuel evs name prio "" = some out

/-! ## The event loop (`main`, src/main.rs lines 281-319) -/

/-- The toolkit events the loop consumes. -/
inductive GuiEvent where
  | Quit
  | StatelessButtonPress (widget : Nat) (id : Nat)
  | Other
deriving DecidableEq, Repr

/-- Why the loop stopped: the `Quit` arm, or a panic propagated from the
scoped worker thread. -/
inductive LoopExit where
  | quit
  | crashed
deriving DecidableEq, Repr

/-- The worlds of the successive `run_entry` invocations, and how many
events the discard loop (`while !h.is_finished()`) pulls during each run. -/
structure MainWorld where
  runs : Nat → RunWorld
  discards : Nat → Nat

/-- The `loop` of `main` (src/main.rs lines 296-319) over a finite observed
prefix of gui events (`get_ev` blocks, so an exhausted prefix — or running
out of iteration fuel — just stops the model with exit `none`).  On a
button press whose id resolves in the entry map the run is performed (its
logs recorded), a run error is logged via `log_rust_error(..,
"Failed to run menu entry", LogPriority::Error)` and the loop continues;
the discard loop (`while !h.is_finished()`) drops `discards` events;
`Quit` breaks the loop.  Entry lookup is first-match on the id. -/
def mainLoop (entries : List (Nat × MenuEntry)) (mw : MainWorld) :
    Nat → Nat → List GuiEvent → List LogMsg → List LogMsg × Option LoopExit
  | _, _, [], logs => (logs, none)
  | 0, _, _ :: _, logs => (logs, none)
  | _ + 1, _, GuiEvent.Quit :: _, logs => (logs, some LoopExit.quit)
  | fuel + 1, i, GuiEvent.Other :: rest, logs => mainLoop entries mw fuel i rest logs
  | fuel + 1, i, GuiEvent.StatelessButtonPress _ id :: rest, logs =>
    match entries.find? (fun p => p.1 == id) with
    | none => mainLoop entries mw fuel i rest logs
    | some p =>
      match run_entry (mw.runs i) p.2 with
      | (RunResult.ok, evs) =>
        mainLoop entries mw fuel (i + 1) (rest.drop (mw.discards i)) (logs ++ logsOf evs)
      | (RunResult.error m, evs) =>
        mainLoop entries mw fuel (i + 1) (rest.drop (mw.discards i))
          (logs ++ logsOf evs ++ [⟨"Failed to run menu entry: " ++ m, "smenu", LogPriority.Error⟩])
      | (RunResult.panicked, evs) => (logs ++ logsOf evs, some LoopExit.crashed)

/-! ## Concrete fixtures -/

/-- An all-succeeding privileged world: root, every device open and ioctl
succeeds, the process environment has no `XDG_RUNTIME_DIR`, and spawning
yields a child with both pipe handles that exits with code 0. -/
def wAllOk : RunWorld :=
  { euid := 0
    openDevTty := true
    openDevTty0 := true
    vtActivate := fun _ => true
    vtWaitActive := fun _ => true
    openTtyNum := fun _ => true
    writeClear := fun _ => true
    openTty3Read := true
    openTty3WriteOut := true
    openTty3WriteErr := true
    procHasXdg := false
    spawn := fun _ _ _ _ => Except.ok ⟨true, true, Except.ok (ExitStatusRaw.exited 0)⟩ }

/-- A Graphical entry with an empty declared environment. -/
def eGfx : MenuEntry :=
  { name := "app", category := Category.Programs, uses_wayland := true,
    executable := "/usr/bin/app", args := [], env := [] }

/-- A Console entry. -/
def eCon : MenuEntry :=
  { name := "term", category := Category.Tools, uses_wayland := false,
    executable := "/bin/sh", args := [], env := [] }

/-! ## Trace-shape helpers -/

/-- Events a `switch_tty` or `wireStdio` call may emit: console operations,
non-critical log posts, and the in-switch arbitration markers — never a
spawn, a wait, a critical log, or the arbitrate-out marker (console 1). -/
def wireBenign (ev : Event) : Bool :=
  match ev with
  | Event.consoleOp _ => true
  | Event.log m => !(m.priority == LogPriority.Critical)
  | Event.arbitrate num clear => (num == 2 && clear == false) || (num == 3 && clear == true)
  | _ => false

theorem switch_tty_all_wireBenign (w : RunWorld) (num : Int) (clear : Bool) :
    ((switch_tty w num clear).2.all wireBenign) = true := by
  unfold switch_tty
  split_ifs <;> rfl

theorem switch_tty_nonroot (w : RunWorld) (num : Int) (clear : Bool) (h : w.euid ≠ 0) :
    switch_tty w num clear = (Except.ok (), [Event.log nonRootMsg]) := by
  simp [switch_tty, h]

theorem wireStdio_all_wireBenign (w : RunWorld) (e : MenuEntry) :
    ((wireStdio w e).2.all wireBenign) = true := by
  cases hw : e.uses_wayland
  · have hall := switch_tty_all_wireBenign w 3 true
    rcases hsw : switch_tty w 3 true with ⟨res, ev⟩
    rw [hsw] at hall
    simp only at hall
    simp only [wireStdio, hw, Bool.false_eq_true, if_false, hsw]
    have hmem : ∀ a, a ∈ Event.arbitrate 3 true :: ev → wireBenign a = true := by
      intro a ha
      rcases List.mem_cons.mp ha with h | h
      · subst h; rfl
      · exact List.all_eq_true.mp hall a h
    cases res
    · exact List.all_eq_true.mpr hmem
    · split_ifs <;> exact List.all_eq_true.mpr hmem
  · have hall := switch_tty_all_wireBenign w 2 false
    rcases hsw : switch_tty w 2 false with ⟨res, ev⟩
    rw [hsw] at hall
    simp only at hall
    simp only [wireStdio, hw, if_true, hsw]
    have hmem1 : ∀ a, a ∈ Event.arbitrate 2 false :: ev → wireBenign a = true := by
      intro a ha
      rcases List.mem_cons.mp ha with h | h
      · subst h; rfl
      · exact List.all_eq_true.mp hall a h
    have hmem2 : ∀ a, a ∈ (Event.arbitrate 2 false :: ev) ++ [Event.log xdgPresentMsg] →
        wireBenign a = true := by
      intro a ha
      rcases List.mem_append.mp ha with h | h
      · exact hmem1 a h
      · rcases List.mem_singleton.mp h with h2
        subst h2; rfl
    cases res
    · exact List.all_eq_true.mpr hmem1
    · split_ifs
      · exact List.all_eq_true.mpr hmem2
      · exact List.all_eq_true.mpr hmem1

theorem no_arb1_of_wireBenign {l : List Event} (h : l.all wireBenign = true) :
    Event.arbitrate 1 false ∉ l := by
  intro hm
  have hb := List.all_eq_true.mp h _ hm
  simp [wireBenign] at hb

theorem no_spawnEvent_of_wireBenign {l : List Event} (h : l.all wireBenign = true)
    (exe : String) (args : List String) (envs : List (String × String)) (wir : Wiring) :
    Event.spawnCalled exe args envs wir ∉ l := by
  intro hm
  have hb := List.all_eq_true.mp h _ hm
  simp [wireBenign] at hb

theorem criticalLogs_append (a b : List Event) :
    criticalLogs (a ++ b) = criticalLogs a ++ criticalLogs b := by
  simp [criticalLogs, logsOf, List.filterMap_append, List.filter_append]

theorem criticalLogs_nil_of_wireBenign {l : List Event} (h : l.all wireBenign = true) :
    criticalLogs l = [] := by
  induction l with
  | nil => rfl
  | cons ev rest ih =>
    rw [List.all_cons, Bool.and_eq_true] at h
    have hrest := ih h.2
    cases ev with
    | log m =>
      have hb : (m.priority == LogPriority.Critical) = false := by
        simpa [wireBenign] using h.1
      simp only [criticalLogs, logsOf, List.filterMap_cons, List.filter_cons, hb] at hrest ⊢
      simpa using hrest
    | consoleOp op => simpa [criticalLogs, logsOf] using hrest
    | arbitrate num clear => simpa [criticalLogs, logsOf] using hrest
    | spawnCalled exe args envs wir => simpa [criticalLogs, logsOf] using hrest
    | relay src prio => simpa [criticalLogs, logsOf] using hrest
    | waited => simpa [criticalLogs, logsOf] using hrest

theorem criticalLogs_relayEvents (child : Child) (name : String) :
    criticalLogs (relayEvents child name) = [] := by
  unfold relayEvents
  rcases child with ⟨ho, he, hw⟩
  cases ho <;> cases he <;> rfl

theorem relayEvents_no_arb (child : Child) (name : String) (num : Int) (c : Bool) :
    Event.arbitrate num c ∉ relayEvents child name := by
  unfold relayEvents
  rcases child with ⟨ho, he, hw⟩
  cases ho <;> cases he <;> simp

theorem wireStdio_ok_wiring (w : RunWorld) (e : MenuEntry)
    (wenvs : Wiring × List (String × String)) (ev1 : List Event)
    (h : wireStdio w e = (Except.ok wenvs, ev1)) : wenvs.1 = wiringOf e := by
  unfold wireStdio at h
  cases hw : e.uses_wayland <;> rw [hw] at h
  · rcases hsw : switch_tty w 3 true with ⟨res, ev⟩
    rw [hsw] at h
    simp only [Bool.false_eq_true, if_false] at h
    cases res with
    | error msg => simp at h
    | ok u =>
      split_ifs at h
      · simp only [Prod.mk.injEq, Except.ok.injEq] at h
        rw [← h.1]
        simp [wiringOf, hw]
      · simp at h
      · simp at h
      · simp at h
  · rcases hsw : switch_tty w 2 false with ⟨res, ev⟩
    rw [hsw] at h
    simp only [if_true] at h
    cases res with
    | error msg => simp at h
    | ok u =>
      split_ifs at h <;>
      · simp only [Prod.mk.injEq, Except.ok.injEq] at h
        rw [← h.1]
        simp [wiringOf, hw]

theorem pathComponents_nil_iff (s : String) : pathComponents s = [] ↔ s = "" := by
  constructor
  · intro h
    by_cases hd : s.data = []
    · cases s with
      | mk d =>
        simp only at hd
        subst hd
        rfl
    · exfalso
      unfold pathComponents at h
      rw [if_neg hd] at h
      by_cases h2 : s.data.head? = some '/'
      · rw [if_pos h2] at h
        simp at h
      · rw [if_neg h2] at h
        rcases hp : (splitOnChar '/' s.data).filter (fun p => p ≠ []) with _ | ⟨p, rest⟩ <;>
          rw [hp] at h <;> simp at h
  · intro h
    subst h
    rfl

theorem run_entry_unfold_ok (w : RunWorld) (e : MenuEntry)
    (wenvs : Wiring × List (String × String)) (ev1 : List Event)
    (child : Child) (comp : PathComp)
    (hwire : wireStdio w e = (Except.ok wenvs, ev1))
    (hspawn : w.spawn e.executable e.args e.env wenvs.1 = Except.ok child)
    (hcomp : (pathComponents e.executable).getLast? = some comp) :
    run_entry w e =
      (match child.wait with
       | Except.error _ =>
         (RunResult.error "Failed to wait for program to exit",
          [Event.log ⟨"Running " ++ e.name, "smenu", LogPriority.Debug⟩] ++ ev1 ++
            [Event.spawnCalled e.executable e.args e.env wenvs.1] ++
            relayEvents child comp.lossy ++ [Event.waited])
       | Except.ok st =>
         ((match (switch_tty w 1 false).1 with
           | Except.error _ => RunResult.error "Failed to switch back to tty1"
           | Except.ok _ => RunResult.ok),
          [Event.log ⟨"Running " ++ e.name, "smenu", LogPriority.Debug⟩] ++ ev1 ++
            [Event.spawnCalled e.executable e.args e.env wenvs.1] ++
            relayEvents child comp.lossy ++ [Event.waited] ++
            classifyLogs comp.lossy st ++ [Event.arbitrate 1 false] ++
            (switch_tty w 1 false).2)) := by
  unfold run_entry
  simp only [hwire, hspawn, hcomp]
  cases hcw : child.wait with
  | error m => rfl
  | ok st =>
    rcases hsw : switch_tty w 1 false with ⟨r7, ev7⟩
    cases r7 <;> rfl

/-! ## Claim theorems -/

/-- The environment overlays handed to `Command` in a trace (one per spawn
call). -/
def spawnEnvLists (evs : List Event) : List (List (String × String)) :=
  evs.filterMap (fun ev => match ev with
    | Event.spawnCalled _ _ envs _ => some envs
    | _ => none)

/-- **C1**: at the failing input — a Graphical entry with an empty declared
environment, run by a supervisor process whose own environment has no
`XDG_RUNTIME_DIR` — the run succeeds but the only spawn call receives the
environment overlay `[]`: no `XDG_RUNTIME_DIR = "/xdg"` is injected into
the child, because `run_entry` builds `envs` and then hands `Command`
`e.env.clone()` (src/main.rs line 222), so the claimed injection never
happens. -/
theorem C1_xdg_never_reaches_spawn :
    (run_entry wAllOk eGfx).1 = RunResult.ok ∧
    spawnEnvLists (run_entry wAllOk eGfx).2 = [[]] := by
  constructor <;> rfl

/-- A world identical to `wAllOk` except that waiting on the child fails. -/
def wWaitErr : RunWorld :=
  { wAllOk with spawn := fun _ _ _ _ => Except.ok ⟨true, true, Except.error "boom"⟩ }

/-- **C2** counterexample: in a run where every step succeeds except the
wait, `run_entry` returns the wait error and the trace contains no
arbitrate-out (switch back to console 1) — contradicting the claim that
arbitrate-out is performed after the wait regardless of the wait's
outcome. -/
theorem C2_cex_wait_error_skips_arbitrate_out :
    (run_entry wWaitErr eGfx).1 = RunResult.error "Failed to wait for program to exit" ∧
    Event.arbitrate 1 false ∉ (run_entry wWaitErr eGfx).2 := by
  constructor
  · rfl
  · decide

/-- **C2** (amended): in every run that reaches the wait step, arbitrate-out
(switch back to console 1, no clear) is performed after the wait only when
the wait succeeds, and its outcome becomes the run's result; when the wait
fails, the wait error is returned immediately and arbitrate-out is
skipped. -/
theorem C2_arbitrate_out_only_after_successful_wait
    (w : RunWorld) (e : MenuEntry) (wenvs : Wiring × List (String × String))
    (ev1 : List Event) (child : Child) (comp : PathComp)
    (hwire : wireStdio w e = (Except.ok wenvs, ev1))
    (hspawn : w.spawn e.executable e.args e.env wenvs.1 = Except.ok child)
    (hcomp : (pathComponents e.executable).getLast? = some comp) :
    (∀ m, child.wait = Except.error m →
      (run_entry w e).1 = RunResult.error "Failed to wait for program to exit" ∧
      Event.arbitrate 1 false ∉ (run_entry w e).2) ∧
    (∀ st, child.wait = Except.ok st →
      (∃ pre suf, (run_entry w e).2 = pre ++ Event.waited :: suf ∧
        Event.arbitrate 1 false ∈ suf) ∧
      (run_entry w e).1 = (match (switch_tty w 1 false).1 with
        | Except.error _ => RunResult.error "Failed to switch back to tty1"
        | Except.ok _ => RunResult.ok)) := by
  have hrun := run_entry_unfold_ok w e wenvs ev1 child comp hwire hspawn hcomp
  constructor
  · intro m hm
    rw [hm] at hrun
    constructor
    · rw [hrun]
    · rw [hrun]
      have hben : ev1.all wireBenign = true := by
        have hb := wireStdio_all_wireBenign w e
        rw [hwire] at hb
        simpa using hb
      intro hmem
      simp only [List.mem_append, List.mem_cons, List.mem_singleton,
        List.not_mem_nil, or_false] at hmem
      rcases hmem with ((((h1 | h1) | h1) | h1) | h1)
      · exact Event.noConfusion h1
      · exact no_arb1_of_wireBenign hben h1
      · exact Event.noConfusion h1
      · exact relayEvents_no_arb child comp.lossy 1 false h1
      · exact Event.noConfusion h1
  · intro st hst
    rw [hst] at hrun
    constructor
    · refine ⟨[Event.log ⟨"Running " ++ e.name, "smenu", LogPriority.Debug⟩] ++ ev1 ++
        [Event.spawnCalled e.executable e.args e.env wenvs.1] ++
        relayEvents child comp.lossy,
        classifyLogs comp.lossy st ++ [Event.arbitrate 1 false] ++ (switch_tty w 1 false).2, ?_, ?_⟩
      · rw [hrun]
        simp [List.append_assoc]
      · simp
    · rw [hrun]

/-- **C2** witness: at a concrete all-succeeding run the arbitrate-out
marker is in the trace after the wait. -/
theorem C2_arbitrate_out_witness :
    Event.arbitrate 1 false ∈ (run_entry wAllOk eGfx).2 := by
  have h := (C2_arbitrate_out_only_after_successful_wait wAllOk eGfx
    ({ stdin := StdioSpec.nullDev, stdout := StdioSpec.piped, stderr := StdioSpec.piped },
      [("XDG_RUNTIME_DIR", "/xdg")])
    [Event.arbitrate 2 false, Event.consoleOp ConsoleOp.openCtl,
      Event.consoleOp (ConsoleOp.activate 2), Event.consoleOp (ConsoleOp.waitActive 2)]
    ⟨true, true, Except.ok (ExitStatusRaw.exited 0)⟩ (PathComp.normal "app")
    rfl rfl rfl).2 (ExitStatusRaw.exited 0) rfl
  rcases h.1 with ⟨pre, suf, heq, hmem⟩
  rw [heq]
  exact List.mem_append.mpr (Or.inr (List.mem_cons_of_mem _ hmem))

/-- **C3**: the relay loop does not terminate at true end-of-stream.  On the
exhausted stream (every `read_line` returns `Ok(0)` and appends nothing),
no amount of fuel makes `push2dogdLoop` exit: the empty buffer hits the
`continue` branch forever.  This refutes the claim that the loop
terminates on every finite stream — it only exits on a read `Err`. -/
theorem C3_relay_never_terminates_at_eof (fuel : Nat) :
    push2dogdLoop fuel [] "app" LogPriority.Info "" = none := by
  induction fuel with
  | zero => rfl
  | succ n ih => simpa [push2dogdLoop] using ih

/-- **C6**: exit classification at the wait step.  When the run reaches a
successful wait with status `st`: a normal exit with code 0 leaves no
critical log in the whole run trace; a normal exit with a nonzero code
leaves exactly one critical log, whose line names the program and the code
(`appCodeMsg`); termination by signal leaves exactly one critical log
naming the program and the signal (`appSigMsg`); and in every case the
supervisor proceeds to the arbitrate-out call. -/
theorem C6_exit_classification
    (w : RunWorld) (e : MenuEntry) (wenvs : Wiring × List (String × String))
    (ev1 : List Event) (child : Child) (comp : PathComp) (st : ExitStatusRaw)
    (hwire : wireStdio w e = (Except.ok wenvs, ev1))
    (hspawn : w.spawn e.executable e.args e.env wenvs.1 = Except.ok child)
    (hcomp : (pathComponents e.executable).getLast? = some comp)
    (hwait : child.wait = Except.ok st) :
    (st = ExitStatusRaw.exited 0 → criticalLogs (run_entry w e).2 = []) ∧
    (∀ c : Int, st = ExitStatusRaw.exited c → c ≠ 0 →
      criticalLogs (run_entry w e).2 =
        [⟨appCodeMsg comp.lossy c, "smenu", LogPriority.Critical⟩]) ∧
    (∀ g : Int, st = ExitStatusRaw.signaled g →
      criticalLogs (run_entry w e).2 =
        [⟨appSigMsg comp.lossy g, "smenu", LogPriority.Critical⟩]) ∧
    Event.arbitrate 1 false ∈ (run_entry w e).2 := by
  have hrun := run_entry_unfold_ok w e wenvs ev1 child comp hwire hspawn hcomp
  rw [hwait] at hrun
  have hben : ev1.all wireBenign = true := by
    have hb := wireStdio_all_wireBenign w e
    rw [hwire] at hb
    simpa using hb
  have hsw2 := switch_tty_all_wireBenign w 1 false
  have hctrace : criticalLogs (run_entry w e).2 = criticalLogs (classifyLogs comp.lossy st) := by
    rw [hrun]
    simp only [criticalLogs_append]
    rw [criticalLogs_nil_of_wireBenign hben, criticalLogs_nil_of_wireBenign hsw2,
      criticalLogs_relayEvents]
    simp [criticalLogs, logsOf]
  refine ⟨?_, ?_, ?_, ?_⟩
  · intro h0
    subst h0
    rw [hctrace]
    rfl
  · intro c hc hne
    subst hc
    rw [hctrace]
    simp [classifyLogs, ExitStatusRaw.code, ExitStatusRaw.signal, hne, criticalLogs, logsOf]
  · intro g hg
    subst hg
    rw [hctrace]
    simp [classifyLogs, ExitStatusRaw.code, ExitStatusRaw.signal, criticalLogs, logsOf]
  · rw [hrun]
    simp

/-- A world identical to `wAllOk` except that the child exits with code 7. -/
def wExit7 : RunWorld :=
  { wAllOk with spawn := fun _ _ _ _ => Except.ok ⟨true, true, Except.ok (ExitStatusRaw.exited 7)⟩ }

/-- **C6** witness: a child exiting with code 7 produces exactly the one
critical log line naming the program and the code. -/
theorem C6_exit7_witness :
    criticalLogs (run_entry wExit7 eGfx).2 =
      [⟨appCodeMsg "app" 7, "smenu", LogPriority.Critical⟩] := by
  have h := C6_exit_classification wExit7 eGfx
    ({ stdin := StdioSpec.nullDev, stdout := StdioSpec.piped, stderr := StdioSpec.piped },
      [("XDG_RUNTIME_DIR", "/xdg")])
    [Event.arbitrate 2 false, Event.consoleOp ConsoleOp.openCtl,
      Event.consoleOp (ConsoleOp.activate 2), Event.consoleOp (ConsoleOp.waitActive 2)]
    ⟨true, true, Except.ok (ExitStatusRaw.exited 7)⟩ (PathComp.normal "app")
    (ExitStatusRaw.exited 7) rfl rfl rfl rfl
  exact h.2.1 7 rfl (by decide)

/-- **C7**: `run_entry` first logs and then arbitrates in — console 2
without clearing for a Graphical entry, console 3 with clearing for a
Console entry — and when that arbitration fails the run returns the
corresponding context error with a trace consisting only of the debug log,
the arbitrate-in marker and the switch's own events: no spawn call is ever
made and console 1 is not restored. -/
theorem C7_arbitration_failure_prevents_spawn
    (w : RunWorld) (e : MenuEntry) (m : String) (ev1 : List Event)
    (hfail : switch_tty w (if e.uses_wayland then 2 else 3)
        (if e.uses_wayland then false else true) = (Except.error m, ev1)) :
    (run_entry w e).1 = RunResult.error
      (if e.uses_wayland then "Failed switch to tty2" else "Failed to switch to tty3") ∧
    (run_entry w e).2 =
      Event.log ⟨"Running " ++ e.name, "smenu", LogPriority.Debug⟩ ::
        Event.arbitrate (if e.uses_wayland then 2 else 3)
          (if e.uses_wayland then false else true) :: ev1 ∧
    (∀ exe args envs wir, Event.spawnCalled exe args envs wir ∉ (run_entry w e).2) ∧
    Event.arbitrate 1 false ∉ (run_entry w e).2 := by
  cases hw : e.uses_wayland
  · rw [hw] at hfail
    simp only [Bool.false_eq_true, if_false] at hfail ⊢
    have hben : ev1.all wireBenign = true := by
      have hb := switch_tty_all_wireBenign w 3 true
      rw [hfail] at hb
      simpa using hb
    have hwire : wireStdio w e =
        (Except.error "Failed to switch to tty3", Event.arbitrate 3 true :: ev1) := by
      unfold wireStdio
      rw [hw]
      simp only [Bool.false_eq_true, if_false, hfail]
    have hrun : run_entry w e =
        (RunResult.error "Failed to switch to tty3",
         [Event.log ⟨"Running " ++ e.name, "smenu", LogPriority.Debug⟩] ++
           (Event.arbitrate 3 true :: ev1)) := by
      unfold run_entry
      simp only [hwire]
    refine ⟨by rw [hrun], by rw [hrun]; simp, ?_, ?_⟩
    · intro exe args envs wir hmem
      rw [hrun] at hmem
      simp only [List.cons_append, List.nil_append, List.mem_cons] at hmem
      rcases hmem with h1 | h1 | h1
      · exact Event.noConfusion h1
      · exact Event.noConfusion h1
      · exact no_spawnEvent_of_wireBenign hben exe args envs wir h1
    · intro hmem
      rw [hrun] at hmem
      simp only [List.cons_append, List.nil_append, List.mem_cons] at hmem
      rcases hmem with h1 | h1 | h1
      · exact Event.noConfusion h1
      · simp at h1
      · exact no_arb1_of_wireBenign hben h1
  · rw [hw] at hfail
    simp only [if_true] at hfail ⊢
    have hben : ev1.all wireBenign = true := by
      have hb := switch_tty_all_wireBenign w 2 false
      rw [hfail] at hb
      simpa using hb
    have hwire : wireStdio w e =
        (Except.error "Failed switch to tty2", Event.arbitrate 2 false :: ev1) := by
      unfold wireStdio
      rw [hw]
      simp only [if_true, hfail]
    have hrun : run_entry w e =
        (RunResult.error "Failed switch to tty2",
         [Event.log ⟨"Running " ++ e.name, "smenu", LogPriority.Debug⟩] ++
           (Event.arbitrate 2 false :: ev1)) := by
      unfold run_entry
      simp only [hwire]
    refine ⟨by rw [hrun], by rw [hrun]; simp, ?_, ?_⟩
    · intro exe args envs wir hmem
      rw [hrun] at hmem
      simp only [List.cons_append, List.nil_append, List.mem_cons] at hmem
      rcases hmem with h1 | h1 | h1
      · exact Event.noConfusion h1
      · exact Event.noConfusion h1
      · exact no_spawnEvent_of_wireBenign hben exe args envs wir h1
    · intro hmem
      rw [hrun] at hmem
      simp only [List.cons_append, List.nil_append, List.mem_cons] at hmem
      rcases hmem with h1 | h1 | h1
      · exact Event.noConfusion h1
      · simp at h1
      · exact no_arb1_of_wireBenign hben h1

/-- A world identical to `wAllOk` except that the `VT_ACTIVATE` ioctl
fails. -/
def wNoVt : RunWorld := { wAllOk with vtActivate := fun _ => false }

/-- **C7** witness: with `VT_ACTIVATE` failing, the Graphical run aborts
with the tty2 context error and its trace contains no spawn call. -/
theorem C7_no_spawn_witness :
    (run_entry wNoVt eGfx).1 = RunResult.error "Failed switch to tty2" ∧
    Event.spawnCalled "/usr/bin/app" [] [] gWiring ∉ (run_entry wNoVt eGfx).2 := by
  have h := C7_arbitration_failure_prevents_spawn wNoVt eGfx "VT_ACTIVATE failed"
    [Event.consoleOp ConsoleOp.openCtl, Event.consoleOp (ConsoleOp.activate 2)] rfl
  exact ⟨h.1, h.2.2.1 "/usr/bin/app" [] [] gWiring⟩

/-- **C8**: without the console-control privilege (effective uid ≠ 0),
`switch_tty` is a success that performs no console operation (its trace is
just the info log), and an unprivileged `run_entry` (with the entry's
stdio device opens succeeding and the spawn succeeding) still performs the
spawn call and the wait. -/
theorem C8_unprivileged_noop_still_runs
    (w : RunWorld) (num : Int) (clear : Bool) (e : MenuEntry) (child : Child)
    (hnr : w.euid ≠ 0)
    (hr : w.openTty3Read = true) (hwo : w.openTty3WriteOut = true)
    (hwe : w.openTty3WriteErr = true)
    (hspawn : w.spawn e.executable e.args e.env (wiringOf e) = Except.ok child)
    (hx : e.executable ≠ "") :
    switch_tty w num clear = (Except.ok (), [Event.log nonRootMsg]) ∧
    Event.spawnCalled e.executable e.args e.env (wiringOf e) ∈ (run_entry w e).2 ∧
    Event.waited ∈ (run_entry w e).2 := by
  refine ⟨switch_tty_nonroot w num clear hnr, ?_⟩
  have hne : pathComponents e.executable ≠ [] :=
    fun hcon => hx ((pathComponents_nil_iff _).mp hcon)
  have hcomp : (pathComponents e.executable).getLast? =
      some ((pathComponents e.executable).getLast hne) :=
    List.getLast?_eq_getLast_of_ne_nil hne
  have hwireEx : ∃ envs ev1, wireStdio w e = (Except.ok (wiringOf e, envs), ev1) := by
    cases hw : e.uses_wayland
    · refine ⟨e.env ++ [("TERM", "linux")], [Event.arbitrate 3 true, Event.log nonRootMsg], ?_⟩
      simp [wireStdio, hw, switch_tty_nonroot w 3 true hnr, hr, hwo, hwe, wiringOf]
    · cases hxdg : w.procHasXdg
      · refine ⟨e.env ++ [("XDG_RUNTIME_DIR", "/xdg")],
          [Event.arbitrate 2 false, Event.log nonRootMsg], ?_⟩
        simp [wireStdio, hw, switch_tty_nonroot w 2 false hnr, hxdg, wiringOf]
      · refine ⟨e.env,
          [Event.arbitrate 2 false, Event.log nonRootMsg, Event.log xdgPresentMsg], ?_⟩
        simp [wireStdio, hw, switch_tty_nonroot w 2 false hnr, hxdg, wiringOf]
  rcases hwireEx with ⟨envs, ev1, hwire⟩
  have hrun := run_entry_unfold_ok w e (wiringOf e, envs) ev1 child
    ((pathComponents e.executable).getLast hne) hwire hspawn hcomp
  rcases hcw : child.wait with m | st
  · rw [hcw] at hrun
    rw [hrun]
    constructor <;> simp
  · rw [hcw] at hrun
    rw [hrun]
    constructor <;> simp

/-- A world identical to `wAllOk` but unprivileged. -/
def wNonRoot : RunWorld := { wAllOk with euid := 1000 }

/-- **C8** witness: the concrete unprivileged world passes both parts. -/
theorem C8_unprivileged_witness :
    switch_tty wNonRoot 5 true = (Except.ok (), [Event.log nonRootMsg]) ∧
    Event.waited ∈ (run_entry wNonRoot eGfx).2 := by
  have h := C8_unprivileged_noop_still_runs wNonRoot 5 true eGfx
    ⟨true, true, Except.ok (ExitStatusRaw.exited 0)⟩
    (by decide) rfl rfl rfl rfl (by decide)
  exact ⟨h.1, h.2.2⟩

/-- The run did not hit the `unwrap` panic of the program-name extraction
(src/main.rs line 229). -/
def noPanic (r : RunResult × List Event) : Bool :=
  match r.1 with
  | RunResult.panicked => false
  | _ => true

/-- **C10**: under the operating-system fact that spawning an empty
executable path fails, `run_entry` never reaches the program-name
`unwrap` with an empty component list: the extraction is only performed
after a successful spawn, a successful spawn forces a non-empty executable
path, and a non-empty path has at least one component — so the run never
panics. -/
theorem C10_program_name_unwrap_safe (w : RunWorld) (e : MenuEntry)
    (hos : e.executable = "" →
      ∀ c : Child, ¬ w.spawn e.executable e.args e.env (wiringOf e) = Except.ok c) :
    noPanic (run_entry w e) = true := by
  unfold run_entry
  rcases hwire : wireStdio w e with ⟨res, ev1⟩
  cases res with
  | error msg => rfl
  | ok wenvs =>
    have hwir : wenvs.1 = wiringOf e := wireStdio_ok_wiring w e wenvs ev1 hwire
    rcases hsp : w.spawn e.executable e.args e.env wenvs.1 with msg | child
    · try simp only [hsp]
      rfl
    · try simp only [hsp]
      rcases hlast : (pathComponents e.executable).getLast? with _ | comp
      · exfalso
        have hnil : pathComponents e.executable = [] := List.getLast?_eq_none_iff.mp hlast
        have hempty : e.executable = "" := (pathComponents_nil_iff _).mp hnil
        rw [hwir] at hsp
        exact hos hempty child hsp
      · try simp only [hlast]
        rcases hcw : child.wait with m | st
        · try simp only [hcw]
          rfl
        · try simp only [hcw]
          rcases hsw : switch_tty w 1 false with ⟨r7, ev7⟩
          try simp only [hsw]
          cases r7 <;> rfl

/-- **C10** witness: a concrete run with a non-empty executable path does
not panic. -/
theorem C10_no_panic_witness : noPanic (run_entry wAllOk eGfx) = true :=
  C10_program_name_unwrap_safe wAllOk eGfx (fun h => absurd h (by decide))

/-- **C4** (amended): when the selected entry's run returns an error, the
event loop posts the failure at **error** priority (the
`log_rust_error(.., "Failed to run menu entry", LogPriority::Error)` call
of src/main.rs line 308, whose line carries the context and the cause) and
continues consuming the remaining events — a run error never terminates
the loop; the `Quit` event, and only it, ends the loop. -/
theorem C4_run_error_logged_error_loop_continues
    (entries : List (Nat × MenuEntry)) (mw : MainWorld) (fuel i wid id : Nat)
    (p : Nat × MenuEntry) (rest : List GuiEvent) (logs : List LogMsg)
    (m : String) (evs : List Event)
    (hfind : entries.find? (fun q => q.1 == id) = some p)
    (hrun : run_entry (mw.runs i) p.2 = (RunResult.error m, evs)) :
    mainLoop entries mw (fuel + 1) i (GuiEvent.StatelessButtonPress wid id :: rest) logs
      = mainLoop entries mw fuel (i + 1) (rest.drop (mw.discards i))
          (logs ++ logsOf evs ++
            [⟨"Failed to run menu entry: " ++ m, "smenu", LogPriority.Error⟩]) ∧
    mainLoop entries mw (fuel + 1) i (GuiEvent.Quit :: rest) logs
      = (logs, some LoopExit.quit) := by
  constructor
  · rw [mainLoop]
    rw [hfind]
    simp only [hrun]
  · rw [mainLoop]

/-- A world identical to `wAllOk` except that spawning fails. -/
def wSpawnFail : RunWorld :=
  { wAllOk with spawn := fun _ _ _ _ => Except.error "No such file or directory" }

/-- The one-entry registry of the concrete session. -/
def entriesFix : List (Nat × MenuEntry) := [(0, eGfx)]

/-- The main-loop world of the concrete session: every run spawns against
`wSpawnFail`, the discard loop pulls no extra event. -/
def mwFix : MainWorld := ⟨fun _ => wSpawnFail, fun _ => 0⟩

/-- **C4** counterexample: in a concrete session whose selected run fails,
the loop's final log list contains the "Failed to run menu entry" line at
error priority and contains no critical-priority entry at all — the claim
that the run error is logged at critical priority is false — and the
session still ends via `Quit`. -/
theorem C4_cex_error_priority_not_critical :
    (⟨"Failed to run menu entry: Failed to spawn the program", "smenu", LogPriority.Error⟩ : LogMsg)
      ∈ (mainLoop entriesFix mwFix 2 0 [GuiEvent.StatelessButtonPress 3 0, GuiEvent.Quit] []).1 ∧
    ((mainLoop entriesFix mwFix 2 0 [GuiEvent.StatelessButtonPress 3 0, GuiEvent.Quit] []).1.filter
      (fun mm => mm.priority == LogPriority.Critical)) = [] ∧
    (mainLoop entriesFix mwFix 2 0 [GuiEvent.StatelessButtonPress 3 0, GuiEvent.Quit] []).2
      = some LoopExit.quit := by
  refine ⟨by decide, by rfl, by rfl⟩

/-- **C4** witness: one concrete failing-run loop step rewrites to the
continuation with the error-priority log appended, and `Quit` exits. -/
theorem C4_loop_continues_witness :
    mainLoop entriesFix mwFix 2 0 [GuiEvent.StatelessButtonPress 3 0, GuiEvent.Quit] []
      = mainLoop entriesFix mwFix 1 1 [GuiEvent.Quit]
          ([] ++ logsOf [Event.log ⟨"Running app", "smenu", LogPriority.Debug⟩,
              Event.arbitrate 2 false, Event.consoleOp ConsoleOp.openCtl,
              Event.consoleOp (ConsoleOp.activate 2), Event.consoleOp (ConsoleOp.waitActive 2),
              Event.spawnCalled "/usr/bin/app" [] []
                ⟨StdioSpec.nullDev, StdioSpec.piped, StdioSpec.piped⟩] ++
            [⟨"Failed to run menu entry: Failed to spawn the program", "smenu",
              LogPriority.Error⟩]) ∧
    mainLoop entriesFix mwFix 2 0 [GuiEvent.Quit] [] = ([], some LoopExit.quit) := by
  have h := C4_run_error_logged_error_loop_continues entriesFix mwFix 1 0 3 0 (0, eGfx)
    [GuiEvent.Quit] [] "Failed to spawn the program"
    [Event.log ⟨"Running app", "smenu", LogPriority.Debug⟩,
      Event.arbitrate 2 false, Event.consoleOp ConsoleOp.openCtl,
      Event.consoleOp (ConsoleOp.activate 2), Event.consoleOp (ConsoleOp.waitActive 2),
      Event.spawnCalled "/usr/bin/app" [] []
        ⟨StdioSpec.nullDev, StdioSpec.piped, StdioSpec.piped⟩]
    rfl rfl
  exact ⟨h.1, h.2⟩

/-! ## Registry id-assignment lemmas (C5) -/

theorem splitItems_nextId : ∀ (l : List MenuEntry) (id : Nat),
    (splitItems l id).2.2 = id + l.length := by
  intro l
  induction l with
  | nil => intro id; simp [splitItems]
  | cons item rest ih =>
    intro id
    simp only [splitItems]
    cases item.category <;> simp [ih] <;> omega

theorem splitItems_mem : ∀ (l : List MenuEntry) (id k : Nat) (h : k < l.length),
    (l.get ⟨k, h⟩, id + k) ∈ (splitItems l id).1 ++ (splitItems l id).2.1 := by
  intro l
  induction l with
  | nil => intro id k h; exact absurd h (Nat.not_lt_zero k)
  | cons item rest ih =>
    intro id k h
    cases k with
    | zero =>
      simp only [splitItems, List.get]
      cases item.category <;> simp
    | succ k' =>
      have h' : k' < rest.length := Nat.lt_of_succ_lt_succ h
      have ih' := ih (id + 1) k' h'
      simp only [splitItems, List.get]
      have harith : id + (k' + 1) = (id + 1) + k' := by omega
      rw [harith]
      cases item.category <;>
        (simp only [List.cons_append, List.mem_cons, List.mem_append] at ih' ⊢; tauto)

theorem splitItems_ids_perm : ∀ (l : List MenuEntry) (id : Nat),
    (((splitItems l id).1 ++ (splitItems l id).2.1).map Prod.snd).Perm
      (List.range' id l.length) := by
  intro l
  induction l with
  | nil => intro id; simp [splitItems]
  | cons item rest ih =>
    intro id
    simp only [splitItems, List.range'_succ]
    cases item.category with
    | Tools =>
      simp only [List.cons_append, List.map_cons]
      exact List.Perm.cons id (ih (id + 1))
    | Programs =>
      simp only [List.map_append, List.map_cons]
      refine List.Perm.trans List.perm_middle ?_
      refine List.Perm.cons id ?_
      simpa [List.map_append] using ih (id + 1)

theorem processFiles_ids (sys : System) (em : Emulator) :
    ∀ (files : List DirFile) (id : Nat),
    List.Pairwise (· < ·) ((processFiles sys em files id).1.map Prod.snd) ∧
    (∀ j ∈ (processFiles sys em files id).1.map Prod.snd,
      id ≤ j ∧ j < (processFiles sys em files id).2.1) ∧
    id ≤ (processFiles sys em files id).2.1 := by
  intro files
  induction files with
  | nil => intro id; simp [processFiles]
  | cons f rest ih =>
    intro id
    simp only [processFiles]
    split_ifs with hok
    · exact ih id
    · cases hfn : f.fileName with
      | none => exact ih id
      | some filename =>
        dsimp only
        split_ifs with hext
        · dsimp only
          rcases ih (id + 1) with ⟨hpw, hbd, hle⟩
          refine ⟨?_, ?_, ?_⟩
          · simp only [List.map_cons]
            exact List.Pairwise.cons (fun j hj => by have := (hbd j hj).1; omega) hpw
          · intro j hj
            simp only [List.map_cons, List.mem_cons] at hj
            rcases hj with hj | hj
            · have h2 := hle
              omega
            · have := hbd j hj
              omega
          · omega
        · exact ih id

/-- The flattened ids of the ROM tabs, in assignment order. -/
def romIds (roms : List (String × List (MenuEntry × Nat))) : List Nat :=
  roms.flatMap (fun tab => tab.2.map Prod.snd)

theorem romPhase_ids (fs : FS) (ems : List Emulator) :
    ∀ (systems : List System) (id : Nat),
    List.Pairwise (· < ·) (romIds (romPhase fs ems systems id).1) ∧
    (∀ j ∈ romIds (romPhase fs ems systems id).1,
      id ≤ j ∧ j < (romPhase fs ems systems id).2.1) ∧
    id ≤ (romPhase fs ems systems id).2.1 := by
  intro systems
  induction systems with
  | nil => intro id; simp [romPhase, romIds]
  | cons sys rest ih =>
    intro id
    simp only [romPhase]
    split_ifs with hex
    · cases hrd : fs.readDir sys.rom_directory with
      | error u => exact ih id
      | ok files =>
        cases hfind : ems.find? (fun e => e.systems.contains sys.name) with
        | none => exact ih id
        | some em =>
          dsimp only
          rcases processFiles_ids sys em files id with ⟨tpw, tbd, tle⟩
          rcases ih (processFiles sys em files id).2.1 with ⟨rpw, rbd, rle⟩
          refine ⟨?_, ?_, ?_⟩
          · simp only [romIds, List.flatMap_cons]
            rw [List.pairwise_append]
            refine ⟨tpw, rpw, ?_⟩
            intro a ha b hb
            have h1 := (tbd a ha).2
            have h2 := (rbd b hb).1
            omega
          · intro j hj
            simp only [romIds, List.flatMap_cons, List.mem_append] at hj
            rcases hj with hj | hj
            · have := tbd j hj
              have := rle
              omega
            · have := rbd j hj
              have := tle
              omega
          · omega
    · exact ih id

theorem romPhase_cons_missing (fs : FS) (ems : List Emulator) (sys : System)
    (rest : List System) (id : Nat)
    (hex : fs.dirExists sys.rom_directory = false) :
    romPhase fs ems (sys :: rest) id =
      ((romPhase fs ems rest id).1, (romPhase fs ems rest id).2.1,
       ⟨sys.name ++ "'s rom directory, " ++ sys.rom_directory ++ ", does not exist, skipping ",
        "smenu", LogPriority.Error⟩ :: (romPhase fs ems rest id).2.2) := by
  rw [romPhase, hex]
  rfl

theorem romPhase_cons_readErr (fs : FS) (ems : List Emulator) (sys : System)
    (rest : List System) (id : Nat) (u : Unit)
    (hex : fs.dirExists sys.rom_directory = true)
    (hrd : fs.readDir sys.rom_directory = Except.error u) :
    romPhase fs ems (sys :: rest) id =
      ((romPhase fs ems rest id).1, (romPhase fs ems rest id).2.1,
       ⟨"Failed to open rom directory for " ++ sys.name, "smenu", LogPriority.Error⟩ ::
         (romPhase fs ems rest id).2.2) := by
  rw [romPhase, hex, hrd]
  rfl

theorem romPhase_cons_noEmulator (fs : FS) (ems : List Emulator) (sys : System)
    (rest : List System) (id : Nat) (files : List DirFile)
    (hex : fs.dirExists sys.rom_directory = true)
    (hrd : fs.readDir sys.rom_directory = Except.ok files)
    (hfind : ems.find? (fun e => e.systems.contains sys.name) = none) :
    romPhase fs ems (sys :: rest) id =
      ((romPhase fs ems rest id).1, (romPhase fs ems rest id).2.1,
       ⟨"Failed to find suitable emulator for system " ++ sys.name, "smenu",
        LogPriority.Error⟩ :: (romPhase fs ems rest id).2.2) := by
  rw [romPhase, hex, hrd]
  dsimp only
  rw [hfind]
  rfl

theorem romPhase_cons_found (fs : FS) (ems : List Emulator) (sys : System)
    (rest : List System) (id : Nat) (files : List DirFile) (em : Emulator)
    (hex : fs.dirExists sys.rom_directory = true)
    (hrd : fs.readDir sys.rom_directory = Except.ok files)
    (hfind : ems.find? (fun e => e.systems.contains sys.name) = some em) :
    romPhase fs ems (sys :: rest) id =
      ((sys.name, (processFiles sys em files id).1) ::
         (romPhase fs ems rest (processFiles sys em files id).2.1).1,
       (romPhase fs ems rest (processFiles sys em files id).2.1).2.1,
       (processFiles sys em files id).2.2 ++
         (romPhase fs ems rest (processFiles sys em files id).2.1).2.2) := by
  rw [romPhase, hex, hrd]
  dsimp only
  rw [hfind]
  rfl

theorem romPhase_skip_missing (fs : FS) (ems : List Emulator) :
    ∀ (pre : List System) (s : System) (post : List System) (id : Nat),
    fs.dirExists s.rom_directory = false →
    (romPhase fs ems (pre ++ s :: post) id).1 = (romPhase fs ems (pre ++ post) id).1 ∧
    (romPhase fs ems (pre ++ s :: post) id).2.1 = (romPhase fs ems (pre ++ post) id).2.1 := by
  intro pre
  induction pre with
  | nil =>
    intro s post id h
    rw [List.nil_append, List.nil_append, romPhase_cons_missing fs ems s post id h]
    exact ⟨rfl, rfl⟩
  | cons q pre ih =>
    intro s post id h
    rw [List.cons_append, List.cons_append]
    by_cases hq : fs.dirExists q.rom_directory
    · cases hrd : fs.readDir q.rom_directory with
      | error u =>
        rw [romPhase_cons_readErr fs ems q (pre ++ s :: post) id u hq hrd,
            romPhase_cons_readErr fs ems q (pre ++ post) id u hq hrd]
        exact ⟨(ih s post id h).1, (ih s post id h).2⟩
      | ok files =>
        cases hfind : ems.find? (fun e => e.systems.contains q.name) with
        | none =>
          rw [romPhase_cons_noEmulator fs ems q (pre ++ s :: post) id files hq hrd hfind,
              romPhase_cons_noEmulator fs ems q (pre ++ post) id files hq hrd hfind]
          exact ⟨(ih s post id h).1, (ih s post id h).2⟩
        | some em =>
          rw [romPhase_cons_found fs ems q (pre ++ s :: post) id files em hq hrd hfind,
              romPhase_cons_found fs ems q (pre ++ post) id files em hq hrd hfind]
          have ihq := ih s post (processFiles q em files id).2.1 h
          exact ⟨by rw [ihq.1], ihq.2⟩
    · have hq' : fs.dirExists q.rom_directory = false := by
        cases hqv : fs.dirExists q.rom_directory
        · rfl
        · exact absurd hqv hq
      rw [romPhase_cons_missing fs ems q (pre ++ s :: post) id hq',
          romPhase_cons_missing fs ems q (pre ++ post) id hq']
      exact ⟨(ih s post id h).1, (ih s post id h).2⟩

/-- The id→entry pairs of the statically declared items (tools and
programs), as inserted into the entry map. -/
def staticPairs (ml : MenuLayout) : List (MenuEntry × Nat) :=
  (splitItems ml.items 0).1 ++ (splitItems ml.items 0).2.1

/-- The ids of all ROM-discovered entries, in assignment order. -/
def romIdsOf (fs : FS) (ml : MenuLayout) : List Nat :=
  romIds (romPhase fs ml.emulators ml.systems ml.items.length).1

/-- **C5**: registry id assignment.  Static ids are assigned sequentially
from 0 in declaration order (the k-th declared item carries id k, and the
static ids are a permutation of `range n`); ROM-discovered ids are
strictly increasing in assignment order and all lie strictly after the
last static id; all ids together are pairwise distinct; and a system whose
rom directory does not exist contributes zero entries and leaves the
entries and the id counter of all other systems unchanged. -/
theorem C5_sequential_unique_ids (fs : FS) (ml : MenuLayout) :
    (splitItems ml.items 0).2.2 = ml.items.length ∧
    (∀ k (h : k < ml.items.length), (ml.items.get ⟨k, h⟩, k) ∈ staticPairs ml) ∧
    ((staticPairs ml).map Prod.snd).Perm (List.range ml.items.length) ∧
    List.Pairwise (· < ·) (romIdsOf fs ml) ∧
    (∀ j ∈ romIdsOf fs ml, ml.items.length ≤ j) ∧
    ((staticPairs ml).map Prod.snd ++ romIdsOf fs ml).Nodup ∧
    (∀ pre s post, fs.dirExists s.rom_directory = false →
      (romPhase fs ml.emulators (pre ++ s :: post) ml.items.length).1
        = (romPhase fs ml.emulators (pre ++ post) ml.items.length).1 ∧
      (romPhase fs ml.emulators (pre ++ s :: post) ml.items.length).2.1
        = (romPhase fs ml.emulators (pre ++ post) ml.items.length).2.1) := by
  have hperm : ((staticPairs ml).map Prod.snd).Perm (List.range ml.items.length) := by
    have hp := splitItems_ids_perm ml.items 0
    rw [List.range_eq_range']
    simpa [staticPairs] using hp
  rcases romPhase_ids fs ml.emulators ml.systems ml.items.length with ⟨rpw, rbd, rle⟩
  refine ⟨?_, ?_, hperm, rpw, ?_, ?_, ?_⟩
  · have := splitItems_nextId ml.items 0
    omega
  · intro k h
    have hm := splitItems_mem ml.items 0 k h
    simpa [staticPairs] using hm
  · intro j hj
    exact (rbd j hj).1
  · have h1 : ((staticPairs ml).map Prod.snd).Nodup :=
      (hperm.nodup_iff).mpr (List.nodup_range _)
    have h2 : (romIdsOf fs ml).Nodup :=
      List.Pairwise.imp (fun hlt => Nat.ne_of_lt hlt) rpw
    refine List.Nodup.append h1 h2 ?_
    intro a ha hb
    have haR : a ∈ List.range ml.items.length := hperm.mem_iff.mp ha
    have halt : a < ml.items.length := List.mem_range.mp haR
    have hge := (rbd a hb).1
    omega
  · intro pre s post h
    exact romPhase_skip_missing fs ml.emulators pre s post ml.items.length h

/-! ## Extension / display-name refinement (C9) -/

/-- Spec-side definition, following the spec's words: the substring of a
filename after the last `'.'` (the whole name when it has no dot). -/
def extSpec (s : String) : String :=
  String.mk ((s.data.reverse.takeWhile (fun c => c != '.')).reverse)

/-- Spec-side definition, following the spec's words: the substring of a
filename before the first `'.'`. -/
def displayNameSpec (s : String) : String :=
  String.mk (s.data.takeWhile (fun c => c != '.'))

theorem splitOnChar_headD (sep : Char) : ∀ l : List Char,
    (splitOnChar sep l).headD [] = l.takeWhile (fun c => c != sep) := by
  intro l
  induction l with
  | nil => rfl
  | cons c rest ih =>
    simp only [splitOnChar]
    cases h : splitOnChar sep rest with
    | nil => exact absurd h (splitOnChar_ne_nil sep rest)
    | cons p ps =>
      rw [h] at ih
      dsimp only
      by_cases hc : c = sep
      · subst hc
        simp [List.takeWhile_cons]
      · rw [if_neg hc]
        have hb : (c != sep) = true := by simpa using hc
        simp only [List.headD_cons] at ih ⊢
        simp [List.takeWhile_cons, hb, ih]

theorem takeWhile_append_stop (sep : Char) : ∀ xs : List Char,
    (xs ++ [sep]).takeWhile (fun c => c != sep) = xs.takeWhile (fun c => c != sep) := by
  intro xs
  induction xs with
  | nil => simp [List.takeWhile_cons]
  | cons x xs ih =>
    by_cases hx : x = sep
    · subst hx
      simp [List.takeWhile_cons]
    · have hb : (x != sep) = true := by simpa using hx
      simp [List.takeWhile_cons, hb, ih]

theorem takeWhile_append_mem (sep : Char) : ∀ (xs ys : List Char), sep ∈ xs →
    (xs ++ ys).takeWhile (fun c => c != sep) = xs.takeWhile (fun c => c != sep) := by
  intro xs
  induction xs with
  | nil => intro ys h; exact absurd h (List.not_mem_nil sep)
  | cons x xs ih =>
    intro ys h
    by_cases hx : x = sep
    · subst hx
      simp [List.takeWhile_cons]
    · have hb : (x != sep) = true := by simpa using hx
      have hmem : sep ∈ xs := by
        rcases List.mem_cons.mp h with h1 | h1
        · exact absurd h1.symm hx
        · exact h1
      simp [List.takeWhile_cons, hb, ih ys hmem]

theorem splitOnChar_single_iff (sep : Char) : ∀ (l : List Char) (p : List Char)
    (ps : List (List Char)), splitOnChar sep l = p :: ps → (ps = [] ↔ sep ∉ l) := by
  intro l
  induction l with
  | nil =>
    intro p ps h
    simp only [splitOnChar] at h
    rcases h with ⟨rfl, rfl⟩
    simp
  | cons c rest ih =>
    intro p ps h
    simp only [splitOnChar] at h
    cases hq : splitOnChar sep rest with
    | nil => exact absurd hq (splitOnChar_ne_nil sep rest)
    | cons q qs =>
      rw [hq] at h
      dsimp only at h
      by_cases hc : c = sep
      · subst hc
        rw [if_pos rfl] at h
        rcases h with ⟨rfl, rfl⟩
        constructor
        · intro hcon
          exact absurd hcon (List.cons_ne_nil _ _)
        · intro hcon
          exact absurd (List.mem_cons_self _ _) hcon
      · rw [if_neg hc] at h
        rcases h with ⟨rfl, rfl⟩
        have hiff := ih q _ hq
        constructor
        · intro h0
          have hnr := hiff.mp h0
          intro hmem
          rcases List.mem_cons.mp hmem with h1 | h1
          · exact hc h1.symm
          · exact hnr h1
        · intro h0
          exact hiff.mpr (fun h1 => h0 (List.mem_cons_of_mem c h1))

theorem splitOnChar_getLastD (sep : Char) : ∀ (l : List Char) (d : List Char),
    (splitOnChar sep l).getLastD d =
      (l.reverse.takeWhile (fun c => c != sep)).reverse := by
  intro l
  induction l with
  | nil => intro d; rfl
  | cons c rest ih =>
    intro d
    simp only [splitOnChar]
    cases h : splitOnChar sep rest with
    | nil => exact absurd h (splitOnChar_ne_nil sep rest)
    | cons p ps =>
      dsimp only
      by_cases hc : c = sep
      · subst hc
        rw [if_pos rfl]
        have hbase := ih []
        rw [h] at hbase
        rw [List.getLastD_cons, hbase, List.reverse_cons, takeWhile_append_stop]
      · rw [if_neg hc]
        have hb : (c != sep) = true := by simpa using hc
        cases hps : ps with
        | nil =>
          rw [hps] at h
          have hnotin : sep ∉ rest := (splitOnChar_single_iff sep rest p [] h).mp rfl
          have hp : p = rest := by
            have h1 := splitOnChar_headD sep rest
            rw [h] at h1
            simp only [List.headD_cons] at h1
            rw [h1]
            exact List.takeWhile_eq_self_iff.mpr (fun x hx => by
              simp only [bne_iff_ne, ne_eq]
              intro hxx
              exact hnotin (hxx ▸ hx))
          subst hp
          rw [List.getLastD_cons, List.getLastD_nil, List.reverse_cons]
          have hall : ∀ x ∈ p.reverse ++ [c], (x != sep) = true := by
            intro x hx
            rcases List.mem_append.mp hx with hx | hx
            · simp only [bne_iff_ne, ne_eq]
              intro hxx
              exact hnotin (hxx ▸ (List.mem_reverse.mp hx))
            · rcases List.mem_singleton.mp hx with rfl
              exact hb
          rw [List.takeWhile_eq_self_iff.mpr hall]
          simp
        | cons q qs2 =>
          rw [hps] at h
          have hmem : sep ∈ rest := by
            by_contra hno
            have hn := (splitOnChar_single_iff sep rest p _ h).mpr hno
            exact List.noConfusion hn
          have hbase := ih d
          rw [h] at hbase
          simp only [List.getLastD_cons] at hbase ⊢
          rw [hbase, List.reverse_cons,
            takeWhile_append_mem sep rest.reverse [c] (List.mem_reverse.mpr hmem)]

/-- **C9**: ROM discovery per file and per system.  The computed extension
is the substring after the last `'.'` and the display name the substring
before the first `'.'` (refinement against the spec-side definitions); a
file whose extension is not allowed contributes no entry and logs the
expected set; an accepted file synthesizes a Graphical entry whose
arguments are the emulator's arguments with the ROM path appended last and
which takes the next id; the emulator used is the first in declaration
order whose systems contain the system's name; and a system with no
matching emulator contributes zero entries and leaves the id counter
unchanged. -/
theorem C9_rom_discovery
    (fs : FS) (ems : List Emulator) (sys : System) (em : Emulator)
    (f : DirFile) (rest : List DirFile) (files : List DirFile)
    (rest2 : List System) (id : Nat) (filename : String) :
    (∀ s : String, extOf s = extSpec s) ∧
    (∀ s : String, fancyNameOf s = displayNameSpec s) ∧
    (f.okEntry = true → f.fileName = some filename →
      extOf filename ∉ sys.file_extensions →
      processFiles sys em (f :: rest) id =
        ((processFiles sys em rest id).1, (processFiles sys em rest id).2.1,
         ⟨wrongExtMsg filename sys.file_extensions (extOf filename), "smenu",
          LogPriority.Error⟩ :: (processFiles sys em rest id).2.2)) ∧
    (f.okEntry = true → f.fileName = some filename →
      extOf filename ∈ sys.file_extensions →
      processFiles sys em (f :: rest) id =
        ((mkRomEntry em filename f, id) :: (processFiles sys em rest (id + 1)).1,
         (processFiles sys em rest (id + 1)).2.1,
         (processFiles sys em rest (id + 1)).2.2) ∧
      mkRomEntry em filename f =
        ⟨displayNameSpec filename, Category.Tools, true, em.executable,
         em.args ++ [f.pathStr.getD ""], em.env⟩) ∧
    (ems.find? (fun e => e.systems.contains sys.name) = some em →
      em.systems.contains sys.name = true ∧
      ∃ pre suf, ems = pre ++ em :: suf ∧
        ∀ e' ∈ pre, e'.systems.contains sys.name = false) ∧
    (fs.dirExists sys.rom_directory = true →
      fs.readDir sys.rom_directory = Except.ok files →
      ems.find? (fun e => e.systems.contains sys.name) = some em →
      (romPhase fs ems (sys :: rest2) id).1 =
        (sys.name, (processFiles sys em files id).1) ::
          (romPhase fs ems rest2 (processFiles sys em files id).2.1).1) ∧
    (fs.dirExists sys.rom_directory = true →
      fs.readDir sys.rom_directory = Except.ok files →
      ems.find? (fun e => e.systems.contains sys.name) = none →
      (romPhase fs ems (sys :: rest2) id).1 = (romPhase fs ems rest2 id).1 ∧
      (romPhase fs ems (sys :: rest2) id).2.1 = (romPhase fs ems rest2 id).2.1) := by
  refine ⟨?_, ?_, ?_, ?_, ?_, ?_, ?_⟩
  · intro s
    unfold extOf extSpec
    rw [splitOnChar_getLastD]
  · intro s
    unfold fancyNameOf displayNameSpec
    rw [splitOnChar_headD]
  · intro hok hnm hext
    rw [processFiles, hok]
    rw [if_neg (by decide : ¬(true = false))]
    rw [hnm]
    dsimp only
    rw [if_neg hext]
  · intro hok hnm hext
    constructor
    · rw [processFiles, hok]
      rw [if_neg (by decide : ¬(true = false))]
      rw [hnm]
      dsimp only
      rw [if_pos hext]
    · unfold mkRomEntry fancyNameOf displayNameSpec
      rw [splitOnChar_headD]
  · intro hfind
    have hf := List.find?_eq_some.mp hfind
    obtain ⟨hp, as, bs, heq, hprior⟩ := hf
    refine ⟨hp, as, bs, heq, ?_⟩
    intro e' he'
    have hpr := hprior e' he'
    simpa using hpr
  · intro hex hrd hfind
    rw [romPhase_cons_found fs ems sys rest2 id files em hex hrd hfind]
  · intro hex hrd hfind
    rw [romPhase_cons_noEmulator fs ems sys rest2 id files hex hrd hfind]
    exact ⟨rfl, rfl⟩
